import Mathlib

set_option maxHeartbeats 1000000

/-!
Verification development for the listing extractor in src/result.py.
The Python module is shallowly embedded: BeautifulSoup queries are modelled
by an abstract Soup structure holding the projections the code reads, and
each Python regex is modelled by a dedicated scanner with the leftmost,
lazy or greedy semantics of the re module.
-/

/-- Models the Python regex class \s and str.strip whitespace (Unicode
whitespace restricted to the code points occurring in this domain). -/
def isPySpace (c : Char) : Bool :=
  c == ' ' || c == '\t' || c == '\n' || c == '\r' ||
  c.val == 0x0b || c.val == 0x0c || c.val == 0x85 ||
  c.val == 0xa0 || c.val == 0x2028 || c.val == 0x2029 || c.val == 0x3000 ||
  (0x2000 ≤ c.val && c.val ≤ 0x200a)

/-- Models the Python regex class \d (ASCII digits plus the fullwidth
digits of this domain). -/
def isDigitChar (c : Char) : Bool :=
  c.isDigit || (0xff10 ≤ c.val && c.val ≤ 0xff19)

/-- Models the Python regex class \w (Unicode word characters) for the
script ranges occurring in this domain: ASCII alphanumerics, underscore,
Latin extensions, kana, CJK ideographs and fullwidth alphanumerics. -/
def isWordChar (c : Char) : Bool :=
  c.isAlphanum || c == '_' ||
  (0xc0 ≤ c.val && c.val ≤ 0x24f) ||
  (0x3041 ≤ c.val && c.val ≤ 0x3096) ||
  (0x309d ≤ c.val && c.val ≤ 0x309f) ||
  (0x30a1 ≤ c.val && c.val ≤ 0x30fa) ||
  (0x30fc ≤ c.val && c.val ≤ 0x30ff) ||
  (0x4e00 ≤ c.val && c.val ≤ 0x9fff) ||
  (0xff10 ≤ c.val && c.val ≤ 0xff19) ||
  (0xff21 ≤ c.val && c.val ≤ 0xff3a) ||
  (0xff41 ≤ c.val && c.val ≤ 0xff5a)

/-- The class [A-Za-z] used by to_english_name_simple. -/
def isLatinLetter (c : Char) : Bool :=
  ('A' ≤ c && c ≤ 'Z') || ('a' ≤ c && c ≤ 'z')

/-- Python str.strip(): remove leading and trailing whitespace. -/
def pyStrip (s : String) : String :=
  (((s.data.dropWhile isPySpace).reverse.dropWhile isPySpace).reverse).asString

/-- Python truthiness of an optional string: None and the empty string are
falsy. -/
def pyTruthy : Option String → Bool
  | none => false
  | some s => s ≠ ""

/-- Python `a or b` on optional strings. -/
def pyOrStr (a b : Option String) : Option String :=
  if pyTruthy a then a else b

/-- Whether the second list starts with the first one. -/
def listStartsWith : List Char → List Char → Bool
  | [], _ => true
  | _ :: _, [] => false
  | p :: ps, c :: cs => p == c && listStartsWith ps cs

/-! ### re.search(r"/rent/(\d+)/(\d+)", url) -/

/-- Attempt of the /rent/ pattern anchored at the head of the list:
the literal "/rent/", a maximal nonempty digit run, a slash, and a
maximal nonempty digit run. -/
def rentMatchAt (cs : List Char) : Option (List Char × List Char) :=
  if listStartsWith "/rent/".data cs then
    let rest := cs.drop 6
    let d1 := rest.takeWhile isDigitChar
    let rest2 := rest.dropWhile isDigitChar
    if d1.isEmpty then none
    else if listStartsWith "/".data rest2 then
      let d2 := rest2.tail.takeWhile isDigitChar
      if d2.isEmpty then none else some (d1, d2)
    else none
  else none

/-- Leftmost search for the /rent/ pattern. -/
def searchRent : List Char → Option (List Char × List Char)
  | [] => none
  | c :: cs =>
    match rentMatchAt (c :: cs) with
    | some r => some r
    | none => searchRent cs

/-! ### re.findall(r"\d+", url) -/

/-- Accumulating scan collecting maximal digit runs in order. -/
def digitRunsAux (cur : List Char) : List Char → List (List Char)
  | [] => if cur.isEmpty then [] else [cur.reverse]
  | c :: cs =>
    if isDigitChar c then digitRunsAux (c :: cur) cs
    else if cur.isEmpty then digitRunsAux [] cs
    else cur.reverse :: digitRunsAux [] cs

/-- All maximal digit runs of a string, in order of appearance. -/
def digitRuns (cs : List Char) : List (List Char) :=
  digitRunsAux [] cs

/-! ### re.search(r"\b(\d{3}-\d{4})\b", t) -/

/-- Attempt of \d{3}-\d{4}\b at the head of the list (the boundary before
the match is checked by the caller). -/
def pcMatchAt (cs : List Char) : Option String :=
  match cs with
  | a :: b :: c :: h :: d :: e :: f :: g :: rest =>
    if isDigitChar a && isDigitChar b && isDigitChar c && h == '-' &&
       isDigitChar d && isDigitChar e && isDigitChar f && isDigitChar g &&
       (match rest with | [] => true | r :: _ => !isWordChar r) then
      some ([a, b, c, h, d, e, f, g]).asString
    else none
  | _ => none

/-- Leftmost search for \b(\d{3}-\d{4})\b; the flag records whether the
previous character is a word character. -/
def searchPostcodeAux (prevWord : Bool) : List Char → Option String
  | [] => none
  | c :: cs =>
    match (if prevWord then none else pcMatchAt (c :: cs)) with
    | some r => some r
    | none => searchPostcodeAux (isWordChar c) cs

/-- re.search of the postal-code pattern with word boundaries. -/
def searchPostcode (cs : List Char) : Option String :=
  searchPostcodeAux false cs

/-! ### re.search(r"(\d{3}-\d{4}[^\n]{0,200})", page) -/

/-- Greedy [^\n]{0,200}: up to n characters stopping before a newline. -/
def takeNonNl : Nat → List Char → List Char
  | 0, _ => []
  | _, [] => []
  | n + 1, c :: cs => if c == '\n' then [] else c :: takeNonNl n cs

/-- Attempt of \d{3}-\d{4}[^\n]{0,200} at the head of the list. -/
def pclMatchAt (cs : List Char) : Option (List Char) :=
  match cs with
  | a :: b :: c :: h :: d :: e :: f :: g :: rest =>
    if isDigitChar a && isDigitChar b && isDigitChar c && h == '-' &&
       isDigitChar d && isDigitChar e && isDigitChar f && isDigitChar g then
      some ([a, b, c, h, d, e, f, g] ++ takeNonNl 200 rest)
    else none
  | _ => none

/-- Leftmost search for the postcode-anchored line pattern. -/
def searchPostcodeLine : List Char → Option (List Char)
  | [] => none
  | c :: cs =>
    match pclMatchAt (c :: cs) with
    | some r => some r
    | none => searchPostcodeLine cs

/-! ### re.split(r"(TEL|Fax|FAX|電話)", line, maxsplit=1)[0] -/

/-- Whether one of the telephone labels starts at the head of the list. -/
def telHere (cs : List Char) : Bool :=
  listStartsWith "TEL".data cs || listStartsWith "Fax".data cs ||
  listStartsWith "FAX".data cs || listStartsWith "電話".data cs

/-- Prefix of the list before the first telephone label. -/
def splitTelAux : List Char → List Char
  | [] => []
  | c :: cs => if telHere (c :: cs) then [] else c :: splitTelAux cs

/-! ### re.sub(r"^\s*\d{3}-\d{4}\s*", "", addr) -/

/-- Removal of a leading whitespace-postcode-whitespace run when the
anchored pattern matches; otherwise the string is unchanged. -/
def stripLeadingPostcode (s : String) : String :=
  let rest := s.data.dropWhile isPySpace
  match rest with
  | a :: b :: c :: h :: d :: e :: f :: g :: tail =>
    if isDigitChar a && isDigitChar b && isDigitChar c && h == '-' &&
       isDigitChar d && isDigitChar e && isDigitChar f && isDigitChar g then
      (tail.dropWhile isPySpace).asString
    else s
  | _ => s

/-! ### re.match(r"(.+?[SUF])", rest): lazy dot-plus then a suffix class -/

/-- Lazy scan after the first consumed character: stop at the first
character of the class; a newline cannot be crossed by the dot. -/
def lazySufAux (suf : List Char) (acc : List Char) : List Char → Option (List Char × List Char)
  | [] => none
  | c :: cs =>
    if suf.contains c then some ((c :: acc).reverse, cs)
    else if c == '\n' then none
    else lazySufAux suf (c :: acc) cs

/-- re.match of (.+?[SUF]) at the start of the list: the group is the
shortest prefix of length at least two ending in a class character. -/
def lazyPrefixSuffix (suf : List Char) : List Char → Option (List Char × List Char)
  | [] => none
  | c :: cs => if c == '\n' then none else lazySufAux suf [c] cs

/-! ### re.search(r"(\d{4})年", text) -/

/-- Attempt of (\d{4})年 at the head of the list. -/
def yearMatchAt (cs : List Char) : Option String :=
  match cs with
  | a :: b :: c :: d :: e :: _ =>
    if isDigitChar a && isDigitChar b && isDigitChar c && isDigitChar d && e == '年' then
      some ([a, b, c, d]).asString
    else none
  | _ => none

/-- Leftmost search for the year pattern. -/
def searchYear : List Char → Option String
  | [] => none
  | c :: cs =>
    match yearMatchAt (c :: cs) with
    | some r => some r
    | none => searchYear cs

/-! ### re.search(r"(.+?)SEP(.+?駅)", t) with backtracking -/

/-- Lazy (.+?駅): one unconditionally consumed non-newline character, then
the scan stops at the first 駅. -/
def findEkiAux (acc : List Char) : List Char → Option (List Char)
  | [] => none
  | c :: cs =>
    if c == '駅' then some ((c :: acc).reverse)
    else if c == '\n' then none
    else findEkiAux (c :: acc) cs

/-- Lazy (.+?駅) at the head of the list. -/
def findEki : List Char → Option (List Char)
  | [] => none
  | c :: cs => if c == '\n' then none else findEkiAux [c] cs

/-- Backtracking core: the first group grows lazily; at each separator the
second group is tried, and on failure the separator is consumed by the
first group and the scan continues. -/
def lsMatchFrom (sep : Char) (g1 : List Char) : List Char → Option (String × String)
  | [] => none
  | c :: cs =>
    if c == sep then
      match findEki cs with
      | some g2 => some (g1.reverse.asString, g2.asString)
      | none => lsMatchFrom sep (c :: g1) cs
    else if c == '\n' then none
    else lsMatchFrom sep (c :: g1) cs

/-- re.search of (.+?)SEP(.+?駅): leftmost start position wins. -/
def searchLineStation (sep : Char) : List Char → Option (String × String)
  | [] => none
  | c :: cs =>
    match (if c == '\n' then none else lsMatchFrom sep [c] cs) with
    | some r => some r
    | none => searchLineStation sep cs

/-! ### re.search(r"徒歩\s*(\d+)\s*分", t) -/

/-- Attempt of the walk-minutes pattern at the head of the list. -/
def walkMatchAt (cs : List Char) : Option String :=
  match cs with
  | c1 :: c2 :: rest =>
    if c1 == '徒' && c2 == '歩' then
      let r1 := rest.dropWhile isPySpace
      let ds := r1.takeWhile isDigitChar
      if ds.isEmpty then none
      else
        match (r1.dropWhile isDigitChar).dropWhile isPySpace with
        | '分' :: _ => some ds.asString
        | _ => none
    else none
  | _ => none

/-- Leftmost search for the walk-minutes pattern. -/
def searchWalk : List Char → Option String
  | [] => none
  | c :: cs =>
    match walkMatchAt (c :: cs) with
    | some r => some r
    | none => searchWalk cs

/-! ### re.split(r"[｜|\\|]", t)[0] -/

/-- Prefix of the title before the first bar-like separator. -/
def splitBarFirst (s : String) : String :=
  (s.data.takeWhile (fun c => !(c == '｜' || c == '|' || c == '\\'))).asString

example : searchRent "https://x/rent/8034884/117024".data =
    some ("8034884".data, "117024".data) := by decide
example : digitRuns "/listing/99ab3".data = [['9', '9'], ['3']] := by decide
example : searchPostcode "x 150-0001 東京".data = some "150-0001" := by decide
example : searchWalk "バス5分 徒歩 12 分".data = some "12" := by decide
example : searchLineStation '／' "JR山手線／渋谷駅 徒歩5分".data =
    some ("JR山手線", "渋谷駅") := by decide

/-! ### Markup model

BeautifulSoup is an external collaborator: the Soup structure holds exactly
the projections of the parsed tree that src/result.py reads. -/

/-- A selected element: its text with spaces as separator
(get_text(" ", strip=True)) and its stripped text (get_text(strip=True)). -/
structure Elem where
  textSp : String
  textStrip : String
deriving DecidableEq

/-- A dt or dd child of the side-info definition list, with its text. -/
inductive SideEntry where
  | dt (text : String)
  | dd (text : String)
deriving DecidableEq

/-- The dd sibling of a transportation dt: the texts of its li items in
document order (get_text(" ", strip=True)). -/
structure DdElem where
  liTexts : List String
deriving DecidableEq

/-- A dt element of the page: its stripped text and its next dd sibling. -/
structure DtElem where
  text : String
  nextDd : Option DdElem
deriving DecidableEq

/-- An img element: its data-src and src attributes. -/
structure ImgElem where
  dataSrc : Option String
  src : Option String
deriving DecidableEq

/-- A JSON value as produced by json.loads (external library); numbers are
modelled by their str() rendering together with their truthiness. -/
inductive Json where
  | null
  | jbool (b : Bool)
  | jnum (srepr : String) (truthy : Bool)
  | jstr (s : String)
  | jarr (elems : List Json)
  | jobj (fields : List (String × Json))

/-- Python truthiness of a JSON value. -/
def Json.isTruthy : Json → Bool
  | .null => false
  | .jbool b => b
  | .jnum _ t => t
  | .jstr s => s ≠ ""
  | .jarr l => !l.isEmpty
  | .jobj f => !f.isEmpty

/-- Python str() of a JSON value; composite renderings are abstracted
since the code only applies str() to geo coordinates. -/
def Json.pyStr : Json → String
  | .null => "None"
  | .jbool true => "True"
  | .jbool false => "False"
  | .jnum s _ => s
  | .jstr s => s
  | .jarr _ => "[object]"
  | .jobj _ => "[object]"

/-- Dictionary lookup on a JSON object; a later duplicate key wins, as in
json.loads. -/
def Json.getKey : Json → String → Option Json
  | .jobj fs, k => fs.foldl (fun acc p => if p.1 == k then some p.2 else acc) none
  | _, _ => none

/-- isinstance(x, dict). -/
def Json.isObj : Json → Bool
  | .jobj _ => true
  | _ => false

/-- Truthiness of dict.get, whose miss is None. -/
def truthyOptJson : Option Json → Bool
  | none => false
  | some j => j.isTruthy

/-- The parsed page. selectOne models soup.select_one, title the title
element, pageTextSp and pageTextNl the page text joined with space and
newline, sideInfoDl the children of dl.rent_view_side_info, ldJson the
ld+json script (outer: element found with truthy string; inner: json.loads
outcome), dts the elements of soup.select("dt") and imgs those of
soup.select("img"). -/
structure Soup where
  selectOne : String → Option Elem
  title : Option Elem
  pageTextSp : String
  pageTextNl : String
  sideInfoDl : Option (List SideEntry)
  ldJson : Option (Option Json)
  dts : List DtElem
  imgs : List ImgElem

/-! ### Embedded source functions (src/result.py) -/

/-- extract_property_csv_id(url). -/
def extract_property_csv_id (url : String) : Option String :=
  match searchRent url.data with
  | some (d1, d2) => some (d1.asString ++ "_" ++ d2.asString)
  | none =>
    let nums := digitRuns url.data
    if nums.isEmpty then none
    else some (String.intercalate "_" (nums.map List.asString))

/-- The candidate selector list of extract_postcode. -/
def postcodeCandidates : List String :=
  ["[itemprop=\"address\"]", ".address", ".addr", ".p-address",
   ".detailAddress", "#address", ".l-property__address",
   ".c-detailAddress", ".p-detail__address"]

/-- The selector loop of extract_postcode: the first selector whose
element text contains the postal-code pattern wins. -/
def postcodeFromSels (soup : Soup) : List String → Option String
  | [] => none
  | sel :: rest =>
    match soup.selectOne sel with
    | some el =>
      match searchPostcode el.textSp.data with
      | some m => some m
      | none => postcodeFromSels soup rest
    | none => postcodeFromSels soup rest

/-- extract_postcode(soup). -/
def extract_postcode (soup : Soup) : Option String :=
  match postcodeFromSels soup postcodeCandidates with
  | some m => some m
  | none => searchPostcode soup.pageTextSp.data

/-- extract_address_text_simple(soup). -/
def extract_address_text_simple (soup : Soup) : Option String :=
  match searchPostcodeLine soup.pageTextNl.data with
  | none => none
  | some line =>
    let line2 := pyStrip (splitTelAux line).asString
    if line2 = "" then none else some line2

/-- The AddressParts intermediate value. The Python dict key chome_banchi
is the remainder of the specification. -/
structure AddrParts where
  prefecture : Option String
  city : Option String
  district : Option String
  chome_banchi : Option String
deriving DecidableEq

/-- The prefecture suffix class [都道府県]. -/
def prefSuffixes : List Char := ['都', '道', '府', '県']

/-- The municipal suffix class (市|区|郡|町|村). -/
def citySuffixes : List Char := ['市', '区', '郡', '町', '村']

/-- The city step of split_japanese_address_simple, applied to the rest
after the prefecture step. -/
def cityStep (pref : Option String) (rest : String) : AddrParts :=
  match lazyPrefixSuffix citySuffixes rest.data with
  | some (cty, r) =>
    let rest2 := pyStrip r.asString
    { prefecture := pref, city := some cty.asString, district := none,
      chome_banchi := if rest2 = "" then none else some rest2 }
  | none =>
    { prefecture := pref, city := none, district := none,
      chome_banchi := if rest = "" then none else some rest }

/-- split_japanese_address_simple(addr). -/
def split_japanese_address_simple (addr0 : String) : AddrParts :=
  let addr := stripLeadingPostcode addr0
  match lazyPrefixSuffix prefSuffixes addr.data with
  | some (p, r) => cityStep (some p.asString) (pyStrip r.asString)
  | none => cityStep none addr

/-- Python dict assignment on an association list: overwrite in place or
append at the end. -/
def dictSet {α : Type} : List (String × α) → String → α → List (String × α)
  | [], k, v => [(k, v)]
  | (k0, v0) :: rest, k, v =>
    if k0 == k then (k, v) :: rest else (k0, v0) :: dictSet rest k v

/-- Python dict lookup on an association list. -/
def dictGet {α : Type} (d : List (String × α)) (k : String) : Option α :=
  (d.find? (fun p => p.1 == k)).map (fun p => p.2)

/-- The dt and dd walk of get_side_info_map_simple: a dt text becomes the
current label; a dd consumes a truthy current label into the mapping. -/
def sideWalk (cur : Option String) (acc : List (String × String)) :
    List SideEntry → List (String × String)
  | [] => acc
  | SideEntry.dt t :: rest => sideWalk (some t) acc rest
  | SideEntry.dd v :: rest =>
    if pyTruthy cur then sideWalk none (dictSet acc (cur.getD "") v) rest
    else sideWalk cur acc rest

/-- get_side_info_map_simple(soup). -/
def get_side_info_map_simple (soup : Soup) : List (String × String) :=
  match soup.sideInfoDl with
  | none => []
  | some entries => sideWalk none [] entries

/-- extract_year_simple(text). -/
def extract_year_simple (text : Option String) : Option String :=
  if !pyTruthy text then none
  else searchYear (text.getD "").data

/-- The fixed native-to-English building-type dictionary. -/
def buildingTypeMapping : List (String × String) :=
  [("マンション", "apartment"), ("アパート", "apartment"),
   ("一戸建て", "house"), ("戸建", "house"),
   ("テラスハウス", "townhouse"), ("タウンハウス", "townhouse")]

/-- normalize_building_type_simple(jp). -/
def normalize_building_type_simple (jp : Option String) : Option String :=
  if !pyTruthy jp then none
  else dictGet buildingTypeMapping (pyStrip (jp.getD ""))

/-- Python "  " to " " replacement as used on the romanized text. -/
def replacePairSpaces : List Char → List Char
  | [] => []
  | [c] => [c]
  | c :: d :: rest =>
    if c == ' ' && d == ' ' then ' ' :: replacePairSpaces rest
    else c :: replacePairSpaces (d :: rest)

/-- Python str.split() with no arguments: whitespace runs separate words. -/
def pySplitWsAux (cur : List Char) : List Char → List String
  | [] => if cur.isEmpty then [] else [cur.reverse.asString]
  | c :: cs =>
    if isPySpace c then
      if cur.isEmpty then pySplitWsAux [] cs
      else cur.reverse.asString :: pySplitWsAux [] cs
    else pySplitWsAux (c :: cur) cs

/-- Python str.capitalize(): first character upper, rest lower. -/
def pyCapitalize (s : String) : String :=
  match s.data with
  | [] => ""
  | c :: cs => (c.toUpper :: cs.map Char.toLower).asString

/-- to_english_name_simple(text). The module-level optional romanizer
handle _conv is passed explicitly as conv. -/
def to_english_name_simple (conv : Option (String → String)) (text : Option String) :
    Option String :=
  if !pyTruthy text then none
  else
    let t := pyStrip (text.getD "")
    if t.data.any isLatinLetter then some t
    else
      match conv with
      | some f =>
        let romaji := pyStrip (replacePairSpaces (f t).data).asString
        some (String.intercalate " " ((pySplitWsAux [] romaji.data).map pyCapitalize))
      | none => some t

/-- The title fallback of extract_building_name_jp_simple. -/
def titleStep (soup : Soup) : Option String :=
  match soup.title with
  | some tEl =>
    let t := pyStrip (splitBarFirst tEl.textStrip)
    if t ≠ "" then some t else none
  | none => none

/-- extract_building_name_jp_simple(soup). -/
def extract_building_name_jp_simple (soup : Soup) : Option String :=
  let info := get_side_info_map_simple soup
  let name := pyOrStr (pyOrStr (dictGet info "物件名") (dictGet info "建物名"))
      (dictGet info "マンション名")
  if pyTruthy name then some (pyStrip (name.getD ""))
  else
    match (soup.selectOne "h1").orElse (fun _ => (soup.selectOne "h2")) |>.orElse
        (fun _ => soup.selectOne ".rent_view_ttl") with
    | some el => if el.textSp ≠ "" then some el.textSp else titleStep soup
    | none => titleStep soup

/-- extract_map_coords_simple(soup). -/
def extract_map_coords_simple (soup : Soup) : Option String × Option String :=
  match soup.ldJson with
  | some (some data) =>
    if data.isObj then
      match data.getKey "geo" with
      | some geo =>
        if geo.isObj then
          let lat := geo.getKey "latitude"
          let lng := geo.getKey "longitude"
          if truthyOptJson lat && truthyOptJson lng then
            (some ((lat.getD Json.null).pyStr), some ((lng.getD Json.null).pyStr))
          else (none, none)
        else (none, none)
      | none => (none, none)
    else (none, none)
  | _ => (none, none)

/-- extract_map_coords_basic(soup). -/
def extract_map_coords_basic (soup : Soup) : Option String × Option String :=
  ((soup.selectOne ".latitude").map Elem.textStrip,
   (soup.selectOne ".longitude").map Elem.textStrip)

/-- One station record of extract_stations_basic. -/
structure StationRec where
  line : Option String
  station : Option String
  walk : Option String
deriving DecidableEq

/-- The per-item line/station split: the native-slash pattern, then the
ASCII-slash pattern, both groups stripped; both fields null when neither
pattern matches. -/
def parseStationText (t : String) : Option String × Option String :=
  match searchLineStation '／' t.data with
  | some (l, s) => (some (pyStrip l), some (pyStrip s))
  | none =>
    match searchLineStation '/' t.data with
    | some (l, s) => (some (pyStrip l), some (pyStrip s))
    | none => (none, none)

/-- The li loop of extract_stations_basic: append a record per item and
stop once the limit is reached. -/
def stationsFromLis (limit : Nat) (acc : List StationRec) : List String → List StationRec
  | [] => acc
  | t :: rest =>
    let ls := parseStationText t
    let w := searchWalk t.data
    let acc2 := acc ++ [⟨ls.1, ls.2, w⟩]
    if acc2.length ≥ limit then acc2 else stationsFromLis limit acc2 rest

/-- The dt loop of extract_stations_basic: only the first dt whose text is
交通 is processed; a missing dd sibling yields the empty result. -/
def stationsScanDts (limit : Nat) : List DtElem → List StationRec
  | [] => []
  | dt :: rest =>
    if dt.text == "交通" then
      match dt.nextDd with
      | none => []
      | some dd => stationsFromLis limit [] dd.liTexts
    else stationsScanDts limit rest

/-- extract_stations_basic(soup, limit). -/
def extract_stations_basic (soup : Soup) (limit : Nat) : List StationRec :=
  stationsScanDts limit soup.dts

/-- Whether the needle occurs in the haystack. -/
def containsSub (needle : List Char) : List Char → Bool
  | [] => listStartsWith needle []
  | c :: cs => listStartsWith needle (c :: cs) || containsSub needle cs

/-- The scheme and authority prefix of a URL, up to the first slash after
the scheme separator. -/
def schemeHostAux (acc : List Char) : List Char → List Char
  | [] => acc.reverse
  | c :: cs =>
    if listStartsWith "://".data (c :: cs) then
      acc.reverse ++ "://".data ++ (cs.drop 2).takeWhile (fun d => d ≠ '/')
    else schemeHostAux (c :: acc) cs

/-- The base URL up to and including its last slash. -/
def upToLastSlash (u : String) : String :=
  ((u.data.reverse.dropWhile (fun c => c ≠ '/')).reverse).asString

/-- Models urllib.parse.urljoin (external library) for the URL shapes of
this domain: an absolute URL is returned as is, a root-relative path is
resolved against the scheme and authority of the base, and any other path
against the directory of the base. -/
def urljoinModel (base rel : String) : String :=
  if containsSub "://".data rel.data then rel
  else if listStartsWith "/".data rel.data then (schemeHostAux [] base.data).asString ++ rel
  else upToLastSlash base ++ rel

/-- The img loop of extract_images_basic: prefer data-src over src, skip
falsy and data: sources, resolve against the base URL, deduplicate, and
stop once the limit is reached. -/
def imagesGo (base : String) (limit : Nat) (urls : List String) :
    List ImgElem → List String
  | [] => urls
  | img :: rest =>
    let src := pyOrStr img.dataSrc img.src
    match src with
    | none => imagesGo base limit urls rest
    | some s =>
      if s == "" || listStartsWith "data:".data s.data then imagesGo base limit urls rest
      else
        let absU := urljoinModel base s
        let urls2 := if urls.contains absU then urls else urls ++ [absU]
        if urls2.length ≥ limit then urls2 else imagesGo base limit urls2 rest

/-- extract_images_basic(soup, base_url, limit). -/
def extract_images_basic (soup : Soup) (base : String) (limit : Nat) : List String :=
  imagesGo base limit [] soup.imgs

/-! ### Orchestrator: parse_property (src/result.py) -/

/-- The assembled record: a Python dict from field names to optional
strings, modelled as an insertion-ordered association list. -/
abbrev RecordT := List (String × Option String)

/-- Record lookup distinguishing an absent key (none) from a present key
with null value (some none). -/
def recGet (d : RecordT) (k : String) : Option (Option String) :=
  (d.find? (fun p => p.1 == k)).map (fun p => p.2)

/-- The station loop of parse_property: for i in range(1, 6), write the
six station fields, reading the record at i-1 when present. -/
def stationFieldsFold (stations : List StationRec) (d : RecordT) : RecordT :=
  ([1, 2, 3, 4, 5] : List Nat).foldl (fun d i =>
    let src := stations[i - 1]?
    let d := dictSet d ("station_name_" ++ toString i) (src.bind StationRec.station)
    let d := dictSet d ("train_line_name_" ++ toString i) (src.bind StationRec.line)
    let d := dictSet d ("walk_" ++ toString i) (src.bind StationRec.walk)
    let d := dictSet d ("bus_" ++ toString i) none
    let d := dictSet d ("car_" ++ toString i) none
    dictSet d ("cycle_" ++ toString i) none) d

/-- The image loop of parse_property: for i in range(1, 17), write the
image url and category fields. -/
def imageFieldsFold (imgs : List String) (d : RecordT) : RecordT :=
  ([1, 2, 3, 4, 5, 6, 7, 8, 9, 10, 11, 12, 13, 14, 15, 16] : List Nat).foldl (fun d i =>
    let d := dictSet d ("image_url_" ++ toString i) imgs[i - 1]?
    dictSet d ("image_category_" ++ toString i) none) d

/-- The addr_text binding of parse_property: the side-info 所在地 value or
the page-text fallback. -/
def addrTextOf (soup : Soup) : Option String :=
  pyOrStr (dictGet (get_side_info_map_simple soup) "所在地")
    (extract_address_text_simple soup)

/-- The addr_parts binding of parse_property: segmentation of a truthy
addr_text, otherwise the all-null parts. -/
def addrPartsOf (soup : Soup) : AddrParts :=
  if pyTruthy (addrTextOf soup) then
    split_japanese_address_simple ((addrTextOf soup).getD "")
  else { prefecture := none, city := none, district := none, chome_banchi := none }

/-- parse_property(url, html): the html bytes are modelled by the parsed
Soup; the module-level optional romanizer handle is passed as conv. The
first coordinate strategy is bound and then rebound by the second, as in
the source. -/
def parse_property (conv : Option (String → String)) (url : String) (soup : Soup) :
    RecordT :=
  let info := get_side_info_map_simple soup
  let addr_parts := addrPartsOf soup
  let building_type_en := normalize_building_type_simple (dictGet info "種別")
  let year_built := extract_year_simple (dictGet info "築年月")
  let name_jp := extract_building_name_jp_simple soup
  let building_name_en := to_english_name_simple conv name_jp
  let _latlng0 := extract_map_coords_simple soup
  let latlng := extract_map_coords_basic soup
  let lat := latlng.1
  let lng := latlng.2
  let stations := extract_stations_basic soup 5
  let imgs := extract_images_basic soup url 8
  let data : RecordT :=
    [("link", some url),
     ("property_csv_id", extract_property_csv_id url),
     ("postcode", extract_postcode soup),
     ("prefecture", addr_parts.prefecture),
     ("city", addr_parts.city),
     ("district", addr_parts.district),
     ("chome_banchi", addr_parts.chome_banchi),
     ("building_type", building_type_en),
     ("year", year_built),
     ("building_name_en", building_name_en),
     ("building_name_ja", name_jp),
     ("building_name_zh_CN", none),
     ("building_name_zh_TW", none),
     ("building_description_en", none),
     ("building_description_ja", none),
     ("building_description_zh_CN", none),
     ("building_description_zh_TW", none),
     ("map_lat", lat),
     ("map_lng", lng),
     ("numeric_guarantor_max", none),
     ("discount", none),
     ("create_date", none)]
  let data := dictSet (dictSet data "map_lat" lat) "map_lng" lng
  let data := stationFieldsFold stations data
  imageFieldsFold imgs data

/-- The fixed schema key list, in record insertion order. -/
def schemaKeys : List String :=
  ["link", "property_csv_id", "postcode", "prefecture", "city", "district",
   "chome_banchi", "building_type", "year", "building_name_en",
   "building_name_ja", "building_name_zh_CN", "building_name_zh_TW",
   "building_description_en", "building_description_ja",
   "building_description_zh_CN", "building_description_zh_TW",
   "map_lat", "map_lng", "numeric_guarantor_max", "discount", "create_date",
   "station_name_1", "train_line_name_1", "walk_1", "bus_1", "car_1", "cycle_1",
   "station_name_2", "train_line_name_2", "walk_2", "bus_2", "car_2", "cycle_2",
   "station_name_3", "train_line_name_3", "walk_3", "bus_3", "car_3", "cycle_3",
   "station_name_4", "train_line_name_4", "walk_4", "bus_4", "car_4", "cycle_4",
   "station_name_5", "train_line_name_5", "walk_5", "bus_5", "car_5", "cycle_5",
   "image_url_1", "image_category_1", "image_url_2", "image_category_2",
   "image_url_3", "image_category_3", "image_url_4", "image_category_4",
   "image_url_5", "image_category_5", "image_url_6", "image_category_6",
   "image_url_7", "image_category_7", "image_url_8", "image_category_8",
   "image_url_9", "image_category_9", "image_url_10", "image_category_10",
   "image_url_11", "image_category_11", "image_url_12", "image_category_12",
   "image_url_13", "image_category_13", "image_url_14", "image_category_14",
   "image_url_15", "image_category_15", "image_url_16", "image_category_16"]

/-! ### Concrete pages used as witnesses -/

/-- A page with no content at all. -/
def emptySoup : Soup :=
  { selectOne := fun _ => none, title := none, pageTextSp := "",
    pageTextNl := "", sideInfoDl := none, ldJson := none, dts := [], imgs := [] }

/-- A page whose transportation list has two stations, the second without
a line separator but with a walk time. -/
def stationSoup : Soup :=
  { emptySoup with
    dts := [{ text := "家賃", nextDd := none },
            { text := "交通",
              nextDd := some { liTexts := ["JR山手線／渋谷駅 徒歩5分",
                                           "東急東横線／代官山駅 徒歩3分"] } }] }

/-- A page with two transportation labels; only the first is processed. -/
def twoLabelSoup : Soup :=
  { emptySoup with
    dts := [{ text := "交通",
              nextDd := some { liTexts := ["JR山手線／渋谷駅 徒歩5分",
                                           "バス15分 徒歩7分"] } },
            { text := "交通",
              nextDd := some { liTexts := ["東西線／西葛西駅 徒歩9分"] } }] }

/-- A page whose structured data carries geo coordinates while the
class-selector strategy finds nothing. -/
def geoSoup : Soup :=
  { emptySoup with
    ldJson := some (some (Json.jobj
      [("geo", Json.jobj [("latitude", Json.jnum "35.658" true),
                          ("longitude", Json.jnum "139.701" true)])])) }

/-- A page where the .address selector carries address text but the page
text has no postal-code anchor. -/
def selAddressSoup : Soup :=
  { emptySoup with
    selectOne := fun sel =>
      if sel == ".address" then
        some { textSp := "東京都渋谷区神宮前", textStrip := "東京都渋谷区神宮前" }
      else none,
    pageTextNl := "東京都渋谷区神宮前" }

/-- A page whose text contains the postal-code anchored address line of
the specification example. -/
def addrLineSoup : Soup :=
  { emptySoup with
    pageTextNl := "物件概要\n150-0001 東京都渋谷区neighborhood TEL 03-1234-5678\n備考" }

example : extract_stations_basic stationSoup 5 =
    [{ line := some "JR山手線", station := some "渋谷駅", walk := some "5" },
     { line := some "東急東横線", station := some "代官山駅", walk := some "3" }] := by
  decide

example : extract_stations_basic twoLabelSoup 5 =
    [{ line := some "JR山手線", station := some "渋谷駅", walk := some "5" },
     { line := none, station := none, walk := some "7" }] := by
  decide

example : extract_map_coords_simple geoSoup = (some "35.658", some "139.701") := by
  decide

example : extract_address_text_simple addrLineSoup =
    some "150-0001 東京都渋谷区neighborhood" := by decide

example : extract_address_text_simple selAddressSoup = none := by decide

theorem natToString1 : toString (1 : Nat) = "1" := rfl
theorem natToString2 : toString (2 : Nat) = "2" := rfl
theorem natToString3 : toString (3 : Nat) = "3" := rfl
theorem natToString4 : toString (4 : Nat) = "4" := rfl
theorem natToString5 : toString (5 : Nat) = "5" := rfl
theorem natToString6 : toString (6 : Nat) = "6" := rfl
theorem natToString7 : toString (7 : Nat) = "7" := rfl
theorem natToString8 : toString (8 : Nat) = "8" := rfl
theorem natToString9 : toString (9 : Nat) = "9" := rfl
theorem natToString10 : toString (10 : Nat) = "10" := rfl
theorem natToString11 : toString (11 : Nat) = "11" := rfl
theorem natToString12 : toString (12 : Nat) = "12" := rfl
theorem natToString13 : toString (13 : Nat) = "13" := rfl
theorem natToString14 : toString (14 : Nat) = "14" := rfl
theorem natToString15 : toString (15 : Nat) = "15" := rfl
theorem natToString16 : toString (16 : Nat) = "16" := rfl

/-- The assembled record written out entry by entry: the dict building of
parse_property evaluated once and for all. -/
theorem parse_property_elems (conv : Option (String → String)) (url : String)
    (soup : Soup) :
    parse_property conv url soup =
      [("link", some url),
       ("property_csv_id", extract_property_csv_id url),
       ("postcode", extract_postcode soup),
       ("prefecture", (addrPartsOf soup).prefecture),
       ("city", (addrPartsOf soup).city),
       ("district", (addrPartsOf soup).district),
       ("chome_banchi", (addrPartsOf soup).chome_banchi),
       ("building_type", normalize_building_type_simple (dictGet (get_side_info_map_simple soup) "種別")),
       ("year", extract_year_simple (dictGet (get_side_info_map_simple soup) "築年月")),
       ("building_name_en", to_english_name_simple conv (extract_building_name_jp_simple soup)),
       ("building_name_ja", extract_building_name_jp_simple soup),
       ("building_name_zh_CN", none),
       ("building_name_zh_TW", none),
       ("building_description_en", none),
       ("building_description_ja", none),
       ("building_description_zh_CN", none),
       ("building_description_zh_TW", none),
       ("map_lat", (extract_map_coords_basic soup).1),
       ("map_lng", (extract_map_coords_basic soup).2),
       ("numeric_guarantor_max", none),
       ("discount", none),
       ("create_date", none),
       ("station_name_1", ((extract_stations_basic soup 5)[0]?).bind StationRec.station),
       ("train_line_name_1", ((extract_stations_basic soup 5)[0]?).bind StationRec.line),
       ("walk_1", ((extract_stations_basic soup 5)[0]?).bind StationRec.walk),
       ("bus_1", none),
       ("car_1", none),
       ("cycle_1", none),
       ("station_name_2", ((extract_stations_basic soup 5)[1]?).bind StationRec.station),
       ("train_line_name_2", ((extract_stations_basic soup 5)[1]?).bind StationRec.line),
       ("walk_2", ((extract_stations_basic soup 5)[1]?).bind StationRec.walk),
       ("bus_2", none),
       ("car_2", none),
       ("cycle_2", none),
       ("station_name_3", ((extract_stations_basic soup 5)[2]?).bind StationRec.station),
       ("train_line_name_3", ((extract_stations_basic soup 5)[2]?).bind StationRec.line),
       ("walk_3", ((extract_stations_basic soup 5)[2]?).bind StationRec.walk),
       ("bus_3", none),
       ("car_3", none),
       ("cycle_3", none),
       ("station_name_4", ((extract_stations_basic soup 5)[3]?).bind StationRec.station),
       ("train_line_name_4", ((extract_stations_basic soup 5)[3]?).bind StationRec.line),
       ("walk_4", ((extract_stations_basic soup 5)[3]?).bind StationRec.walk),
       ("bus_4", none),
       ("car_4", none),
       ("cycle_4", none),
       ("station_name_5", ((extract_stations_basic soup 5)[4]?).bind StationRec.station),
       ("train_line_name_5", ((extract_stations_basic soup 5)[4]?).bind StationRec.line),
       ("walk_5", ((extract_stations_basic soup 5)[4]?).bind StationRec.walk),
       ("bus_5", none),
       ("car_5", none),
       ("cycle_5", none),
       ("image_url_1", (extract_images_basic soup url 8)[0]?),
       ("image_category_1", none),
       ("image_url_2", (extract_images_basic soup url 8)[1]?),
       ("image_category_2", none),
       ("image_url_3", (extract_images_basic soup url 8)[2]?),
       ("image_category_3", none),
       ("image_url_4", (extract_images_basic soup url 8)[3]?),
       ("image_category_4", none),
       ("image_url_5", (extract_images_basic soup url 8)[4]?),
       ("image_category_5", none),
       ("image_url_6", (extract_images_basic soup url 8)[5]?),
       ("image_category_6", none),
       ("image_url_7", (extract_images_basic soup url 8)[6]?),
       ("image_category_7", none),
       ("image_url_8", (extract_images_basic soup url 8)[7]?),
       ("image_category_8", none),
       ("image_url_9", (extract_images_basic soup url 8)[8]?),
       ("image_category_9", none),
       ("image_url_10", (extract_images_basic soup url 8)[9]?),
       ("image_category_10", none),
       ("image_url_11", (extract_images_basic soup url 8)[10]?),
       ("image_category_11", none),
       ("image_url_12", (extract_images_basic soup url 8)[11]?),
       ("image_category_12", none),
       ("image_url_13", (extract_images_basic soup url 8)[12]?),
       ("image_category_13", none),
       ("image_url_14", (extract_images_basic soup url 8)[13]?),
       ("image_category_14", none),
       ("image_url_15", (extract_images_basic soup url 8)[14]?),
       ("image_category_15", none),
       ("image_url_16", (extract_images_basic soup url 8)[15]?),
       ("image_category_16", none)] := by
  simp [parse_property, stationFieldsFold, imageFieldsFold, dictSet,
    natToString1, natToString2, natToString3, natToString4, natToString5,
    natToString6, natToString7, natToString8, natToString9, natToString10,
    natToString11, natToString12, natToString13, natToString14, natToString15,
    natToString16]

/-- A key contained in the key list of a record is found by recGet. -/
theorem recGet_isSome_of_mem_keys (d : RecordT) (k : String)
    (h : k ∈ d.map Prod.fst) : (recGet d k).isSome = true := by
  induction d with
  | nil => simp at h
  | cons p rest ih =>
    by_cases hk : p.1 == k
    · simp [recGet, List.find?, hk]
    · simp only [List.map_cons, List.mem_cons] at h
      rcases h with h | h
      · exact absurd (by simp [h]) hk
      · simpa [recGet, List.find?, hk] using ih h

/-- The key list of the assembled record is exactly the fixed schema. -/
theorem parse_property_keys (conv : Option (String → String)) (url : String)
    (soup : Soup) :
    (parse_property conv url soup).map Prod.fst = schemaKeys := by
  rw [parse_property_elems]
  rfl

/-- C1. For every romanizer handle, url and parsed page, parse_property is
a total function whose record contains every fixed schema field name as a
key; unresolved fields are present with a null value, and no exception can
be raised since the embedding is a total Lean function. -/
theorem c1_parse_property_total_schema (conv : Option (String → String))
    (url : String) (soup : Soup) (k : String) (hk : k ∈ schemaKeys) :
    (recGet (parse_property conv url soup) k).isSome = true := by
  apply recGet_isSome_of_mem_keys
  rw [parse_property_keys]
  exact hk

/-- Witness for C1 at a concrete url and the empty page. -/
theorem c1_parse_property_total_schema_witness :
    (recGet (parse_property none "https://example.com/page" emptySoup)
      "postcode").isSome = true :=
  c1_parse_property_total_schema none "https://example.com/page" emptySoup
    "postcode" (by decide)

/-- C5. The assembled map_lat and map_lng always equal the class-selector
strategy result: the structured-data strategy runs first but is rebound
unconditionally; the geoSoup conjuncts exhibit the overwrite with a
successful structured-data strategy and an empty class-selector strategy. -/
theorem c5_coords_overwritten :
    (∀ (conv : Option (String → String)) (url : String) (soup : Soup),
       recGet (parse_property conv url soup) "map_lat" =
         some (extract_map_coords_basic soup).1 ∧
       recGet (parse_property conv url soup) "map_lng" =
         some (extract_map_coords_basic soup).2) ∧
    extract_map_coords_simple geoSoup = (some "35.658", some "139.701") ∧
    extract_map_coords_basic geoSoup = (none, none) ∧
    recGet (parse_property none "https://example.com/p" geoSoup) "map_lat" = some none ∧
    recGet (parse_property none "https://example.com/p" geoSoup) "map_lng" = some none := by
  refine ⟨fun conv url soup => ⟨?_, ?_⟩, by decide, by decide, ?_, ?_⟩
  · rw [parse_property_elems]
    simp [recGet, List.find?]
  · rw [parse_property_elems]
    simp [recGet, List.find?]
  · rw [parse_property_elems]
    simp [recGet, List.find?]
    decide
  · rw [parse_property_elems]
    simp [recGet, List.find?]
    decide

/-- The image loop never grows past the limit when entered below it. -/
theorem imagesGo_length_le (base : String) (limit : Nat) :
    ∀ (imgs : List ImgElem) (urls : List String), urls.length < limit →
      (imagesGo base limit urls imgs).length ≤ limit := by
  intro imgs
  induction imgs with
  | nil => intro urls h; simpa [imagesGo] using Nat.le_of_lt h
  | cons img rest ih =>
    intro urls h
    simp only [imagesGo]
    match hsrc : pyOrStr img.dataSrc img.src with
    | none => exact ih urls h
    | some s =>
      by_cases hskip : s == "" || listStartsWith "data:".data s.data
      · simp only [hskip]
        exact ih urls h
      · simp only [hskip]
        set absU := urljoinModel base s with habs
        set urls2 := if urls.contains absU then urls else urls ++ [absU] with hu2
        have hlen : urls2.length ≤ urls.length + 1 := by
          rw [hu2]
          split
          · exact Nat.le_succ _
          · simp
        by_cases hge : urls2.length ≥ limit
        · simp only [hge, if_true]
          exact Nat.le_trans hlen h
        · simp only [hge, if_false]
          exact ih urls2 (Nat.lt_of_not_le hge)

/-- The collected image urls are capped by the limit. -/
theorem extract_images_length_le (soup : Soup) (base : String) (limit : Nat)
    (h : 0 < limit) : (extract_images_basic soup base limit).length ≤ limit := by
  exact imagesGo_length_le base limit soup.imgs [] (by simpa using h)

/-- C10. For every input, image_url_9 through image_url_16 are null since
the image collection is invoked with a cap of 8, and image_category_1
through image_category_16 are null for every index. -/
theorem c10_image_slots_always_null (conv : Option (String → String))
    (url : String) (soup : Soup) (i : Nat) :
    (9 ≤ i → i ≤ 16 →
      recGet (parse_property conv url soup) ("image_url_" ++ toString i) = some none) ∧
    (1 ≤ i → i ≤ 16 →
      recGet (parse_property conv url soup) ("image_category_" ++ toString i) = some none) := by
  have hlen : (extract_images_basic soup url 8).length ≤ 8 :=
    extract_images_length_le soup url 8 (by omega)
  constructor
  · intro h9 h16
    interval_cases i <;>
      (rw [parse_property_elems]
       simp [recGet, List.find?, natToString9, natToString10, natToString11,
         natToString12, natToString13, natToString14, natToString15, natToString16]
       exact Nat.le_trans hlen (by omega))
  · intro h1 h16
    interval_cases i <;>
      (rw [parse_property_elems]
       simp [recGet, List.find?, natToString1, natToString2, natToString3,
         natToString4, natToString5, natToString6, natToString7, natToString8,
         natToString9, natToString10, natToString11, natToString12,
         natToString13, natToString14, natToString15, natToString16])

/-- Witness for C10 at index 9 on the empty page. -/
theorem c10_image_slots_always_null_witness :
    recGet (parse_property none "https://example.com/p" emptySoup)
      ("image_url_" ++ toString (9 : Nat)) = some none :=
  (c10_image_slots_always_null none "https://example.com/p" emptySoup 9).1
    (by omega) (by omega)

/-- Option.bind through a list read beyond the end is none. -/
theorem bind_getElem?_none {α β : Type} (l : List α) (f : α → Option β) (n : Nat)
    (h : l.length ≤ n) : (l[n]?.bind f) = none := by
  rw [List.getElem?_eq_none h]
  rfl

/-- The station_name_i field is the station of the i-th discovered record
or null. -/
theorem recGet_station_name (conv : Option (String → String)) (url : String)
    (soup : Soup) (i : Nat) (h1 : 1 ≤ i) (h5 : i ≤ 5) :
    recGet (parse_property conv url soup) ("station_name_" ++ toString i) =
      some (((extract_stations_basic soup 5)[i - 1]?).bind StationRec.station) := by
  interval_cases i <;>
    (rw [parse_property_elems]
     simp [recGet, List.find?, natToString1, natToString2, natToString3,
       natToString4, natToString5])

/-- The train_line_name_i field is the line of the i-th discovered record
or null. -/
theorem recGet_train_line_name (conv : Option (String → String)) (url : String)
    (soup : Soup) (i : Nat) (h1 : 1 ≤ i) (h5 : i ≤ 5) :
    recGet (parse_property conv url soup) ("train_line_name_" ++ toString i) =
      some (((extract_stations_basic soup 5)[i - 1]?).bind StationRec.line) := by
  interval_cases i <;>
    (rw [parse_property_elems]
     simp [recGet, List.find?, natToString1, natToString2, natToString3,
       natToString4, natToString5])

/-- The walk_i field is the walk minutes of the i-th discovered record or
null. -/
theorem recGet_walk (conv : Option (String → String)) (url : String)
    (soup : Soup) (i : Nat) (h1 : 1 ≤ i) (h5 : i ≤ 5) :
    recGet (parse_property conv url soup) ("walk_" ++ toString i) =
      some (((extract_stations_basic soup 5)[i - 1]?).bind StationRec.walk) := by
  interval_cases i <;>
    (rw [parse_property_elems]
     simp [recGet, List.find?, natToString1, natToString2, natToString3,
       natToString4, natToString5])

/-- The image_url_i field is the i-th collected url or null. -/
theorem recGet_image_url (conv : Option (String → String)) (url : String)
    (soup : Soup) (i : Nat) (h1 : 1 ≤ i) (h16 : i ≤ 16) :
    recGet (parse_property conv url soup) ("image_url_" ++ toString i) =
      some ((extract_images_basic soup url 8)[i - 1]?) := by
  interval_cases i <;>
    (rw [parse_property_elems]
     simp [recGet, List.find?, natToString1, natToString2, natToString3,
       natToString4, natToString5, natToString6, natToString7, natToString8,
       natToString9, natToString10, natToString11, natToString12,
       natToString13, natToString14, natToString15, natToString16])

/-- C2. The repeated groups are written at every index 1..5 (stations) and
1..16 (images) with the discovered value at indexes within the discovered
count and null beyond it; in particular with exactly two discovered
stations, station_name_1 and station_name_2 carry their names while
station_name_3 through station_name_5 are present with a null value. -/
theorem c2_repeated_group_padding (conv : Option (String → String)) (url : String)
    (soup : Soup) :
    (∀ i : Nat, 1 ≤ i → i ≤ 5 →
       recGet (parse_property conv url soup) ("station_name_" ++ toString i) =
         some (((extract_stations_basic soup 5)[i - 1]?).bind StationRec.station) ∧
       recGet (parse_property conv url soup) ("train_line_name_" ++ toString i) =
         some (((extract_stations_basic soup 5)[i - 1]?).bind StationRec.line) ∧
       recGet (parse_property conv url soup) ("walk_" ++ toString i) =
         some (((extract_stations_basic soup 5)[i - 1]?).bind StationRec.walk)) ∧
    (∀ i : Nat, 1 ≤ i → i ≤ 16 →
       recGet (parse_property conv url soup) ("image_url_" ++ toString i) =
         some ((extract_images_basic soup url 8)[i - 1]?)) ∧
    (∀ i : Nat, (extract_stations_basic soup 5).length < i → i ≤ 5 →
       recGet (parse_property conv url soup) ("station_name_" ++ toString i) =
         some none) ∧
    (∀ i : Nat, (extract_images_basic soup url 8).length < i → i ≤ 16 →
       recGet (parse_property conv url soup) ("image_url_" ++ toString i) =
         some none) ∧
    (∀ (s1 s2 : StationRec) (n1 n2 : String),
       extract_stations_basic soup 5 = [s1, s2] →
       s1.station = some n1 → s2.station = some n2 →
       recGet (parse_property conv url soup) "station_name_1" = some (some n1) ∧
       recGet (parse_property conv url soup) "station_name_2" = some (some n2) ∧
       recGet (parse_property conv url soup) "station_name_3" = some none ∧
       recGet (parse_property conv url soup) "station_name_4" = some none ∧
       recGet (parse_property conv url soup) "station_name_5" = some none) := by
  refine ⟨?_, ?_, ?_, ?_, ?_⟩
  · intro i h1 h5
    exact ⟨recGet_station_name conv url soup i h1 h5,
           recGet_train_line_name conv url soup i h1 h5,
           recGet_walk conv url soup i h1 h5⟩
  · intro i h1 h16
    exact recGet_image_url conv url soup i h1 h16
  · intro i hlt h5
    rw [recGet_station_name conv url soup i (by omega) h5,
        bind_getElem?_none _ _ _ (by omega)]
  · intro i hlt h16
    rw [recGet_image_url conv url soup i (by omega) h16,
        List.getElem?_eq_none (by omega)]
  · intro s1 s2 n1 n2 hsts h1 h2
    have e1 := recGet_station_name conv url soup 1 (by omega) (by omega)
    have e2 := recGet_station_name conv url soup 2 (by omega) (by omega)
    have e3 := recGet_station_name conv url soup 3 (by omega) (by omega)
    have e4 := recGet_station_name conv url soup 4 (by omega) (by omega)
    have e5 := recGet_station_name conv url soup 5 (by omega) (by omega)
    rw [hsts] at e1 e2 e3 e4 e5
    refine ⟨?_, ?_, ?_, ?_, ?_⟩
    · simpa [h1] using e1
    · simpa [h2] using e2
    · simpa using e3
    · simpa using e4
    · simpa using e5

/-- Witness for C2 on a page with exactly two discovered stations. -/
theorem c2_repeated_group_padding_witness :
    recGet (parse_property none "https://example.com/p" stationSoup)
      "station_name_1" = some (some "渋谷駅") ∧
    recGet (parse_property none "https://example.com/p" stationSoup)
      "station_name_2" = some (some "代官山駅") ∧
    recGet (parse_property none "https://example.com/p" stationSoup)
      "station_name_3" = some none ∧
    recGet (parse_property none "https://example.com/p" stationSoup)
      "station_name_4" = some none ∧
    recGet (parse_property none "https://example.com/p" stationSoup)
      "station_name_5" = some none :=
  (c2_repeated_group_padding none "https://example.com/p" stationSoup).2.2.2.2
    { line := some "JR山手線", station := some "渋谷駅", walk := some "5" }
    { line := some "東急東横線", station := some "代官山駅", walk := some "3" }
    "渋谷駅" "代官山駅" (by decide) rfl rfl

/-- C6. Building-type normalization is a closed allow-list: マンション maps
to apartment; an unrecognized native string such as 倉庫 or an absent value
yields null; every non-null output is one of the three English codes, so
the native string is never passed through; the embedding is total, hence
no exception. -/
theorem c6_building_type_closed_allow_list :
    normalize_building_type_simple (some "マンション") = some "apartment" ∧
    normalize_building_type_simple (some "倉庫") = none ∧
    normalize_building_type_simple none = none ∧
    (∀ s r : String, normalize_building_type_simple (some s) = some r →
       r = "apartment" ∨ r = "house" ∨ r = "townhouse") ∧
    (∀ s : String, pyStrip s ∉ buildingTypeMapping.map Prod.fst →
       normalize_building_type_simple (some s) = none) := by
  refine ⟨by decide, by decide, by decide, ?_, ?_⟩
  · intro s r h
    by_cases hs : pyTruthy (some s)
    · simp only [normalize_building_type_simple, hs, Bool.not_true,
        Bool.false_eq_true, if_false] at h
      simp only [dictGet, Option.map_eq_some'] at h
      obtain ⟨p, hp, hpr⟩ := h
      have hmem := List.mem_of_find?_eq_some hp
      simp only [buildingTypeMapping, List.mem_cons, List.not_mem_nil, or_false] at hmem
      rcases hmem with h | h | h | h | h | h <;> subst h <;> simp_all
    · simp [normalize_building_type_simple, hs] at h
  · intro s hs
    by_cases ht : pyTruthy (some s)
    · simp only [normalize_building_type_simple, ht, Bool.not_true,
        Bool.false_eq_true, if_false, Option.getD_some]
      rw [dictGet]
      rw [List.find?_eq_none.mpr]
      · rfl
      · intro p hp hbeq
        apply hs
        have : p.1 = pyStrip s := by
          have := of_decide_eq_true hbeq
          exact this
        rw [← this]
        exact List.mem_map_of_mem Prod.fst hp
    · simp [normalize_building_type_simple, ht]

/-- Witness for C6 on an unrecognized native type string. -/
theorem c6_building_type_closed_allow_list_witness :
    normalize_building_type_simple (some "オフィス") = none :=
  c6_building_type_closed_allow_list.2.2.2.2 "オフィス" (by decide)

/-- C7 counterexample. The name " Abc" is non-empty and contains a Latin
letter, yet to_english_name_simple returns it stripped, not unchanged;
the same stripping applies on the pass-through path. -/
theorem c7_counterexample_strip_not_unchanged :
    to_english_name_simple none (some " Abc") = some "Abc" ∧
    to_english_name_simple none (some " Abc") ≠ some " Abc" := by
  constructor
  · decide
  · decide

/-- C7 amended. Names are first stripped of surrounding whitespace: for
every non-empty name, if the stripped name contains a Latin letter the
stripped name is returned (for any romanizer handle), and when the
romanizer is unavailable the stripped name is returned as well — never
null and never an error. -/
theorem c7_romanization_pass_through (conv : Option (String → String))
    (name : String) (h : name ≠ "") :
    ((pyStrip name).data.any isLatinLetter = true →
       to_english_name_simple conv (some name) = some (pyStrip name)) ∧
    (conv = none →
       to_english_name_simple none (some name) = some (pyStrip name)) := by
  have ht : pyTruthy (some name) = true := by simpa [pyTruthy] using h
  constructor
  · intro hlat
    simp [to_english_name_simple, ht, hlat]
  · intro _
    by_cases hlat : (pyStrip name).data.any isLatinLetter
    · simp [to_english_name_simple, ht, hlat]
    · simp [to_english_name_simple, ht, hlat]

/-- Witness for C7 amended on a native-script name with the romanizer
unavailable. -/
theorem c7_romanization_pass_through_witness :
    to_english_name_simple none (some "渋谷ビル") = some "渋谷ビル" := by
  have h := (c7_romanization_pass_through none "渋谷ビル" (by decide)).2 rfl
  rw [h]
  decide

/-- The dt scan is insensitive to everything after the first
transportation label. -/
theorem stationsScanDts_first_label (lim : Nat) (dt : DtElem)
    (h : dt.text = "交通") :
    ∀ (pre rest1 rest2 : List DtElem),
      stationsScanDts lim (pre ++ dt :: rest1) =
        stationsScanDts lim (pre ++ dt :: rest2) := by
  intro pre
  induction pre with
  | nil =>
    intro rest1 rest2
    simp [stationsScanDts, h]
  | cons p pre ih =>
    intro rest1 rest2
    by_cases hp : p.text == "交通"
    · simp [stationsScanDts, hp]
    · simp only [List.cons_append, stationsScanDts, hp]
      exact ih rest1 rest2

/-- Without any transportation label the scan returns the empty list. -/
theorem stationsScanDts_no_label (lim : Nat) :
    ∀ (dts : List DtElem), (∀ dt ∈ dts, dt.text ≠ "交通") →
      stationsScanDts lim dts = [] := by
  intro dts
  induction dts with
  | nil => intro _; rfl
  | cons p rest ih =>
    intro h
    have hp : (p.text == "交通") = false := by
      simpa using h p (by simp)
    simp only [stationsScanDts, hp, Bool.false_eq_true, if_false]
    exact ih (fun dt hdt => h dt (by simp [hdt]))

/-- A successful backtracking match contains the separator. -/
theorem lsMatchFrom_some_mem (sep : Char) :
    ∀ (cs g1 : List Char) (r : String × String),
      lsMatchFrom sep g1 cs = some r → sep ∈ cs := by
  intro cs
  induction cs with
  | nil => intro g1 r h; simp [lsMatchFrom] at h
  | cons c cs ih =>
    intro g1 r h
    by_cases hc : c == sep
    · have hce : c = sep := by simpa using hc
      rw [← hce]
      exact List.mem_cons_self c cs
    · simp only [lsMatchFrom, hc, Bool.false_eq_true, if_false] at h
      by_cases hn : c == '\n'
      · simp only [hn, if_true] at h
        cases h
      · simp only [hn, Bool.false_eq_true, if_false] at h
        exact List.mem_cons_of_mem c (ih (c :: g1) r h)

/-- A successful line-station search contains the separator. -/
theorem searchLineStation_some_mem (sep : Char) :
    ∀ (cs : List Char) (r : String × String),
      searchLineStation sep cs = some r → sep ∈ cs := by
  intro cs
  induction cs with
  | nil => intro r h; simp [searchLineStation] at h
  | cons c cs ih =>
    intro r h
    rw [searchLineStation] at h
    by_cases hn : c == '\n'
    · simp only [hn, if_true] at h
      exact List.mem_cons_of_mem c (ih r h)
    · simp only [hn, Bool.false_eq_true, if_false] at h
      match hm : lsMatchFrom sep [c] cs with
      | some r2 => exact List.mem_cons_of_mem c (lsMatchFrom_some_mem sep cs [c] r2 hm)
      | none =>
        rw [hm] at h
        exact List.mem_cons_of_mem c (ih r h)

/-- C9. Station extraction processes only the first 交通 definition term:
the result is insensitive to everything after it and empty when no such
label exists; per item the text is split at a native or ASCII slash into a
line and station pair, both null when no separator occurs; and the
twoLabelSoup evaluation shows the walk minutes extracted although the
split failed, while the second 交通 label is ignored. -/
theorem c9_stations_first_label_split_walk :
    (∀ (soup1 soup2 : Soup) (pre : List DtElem) (dt : DtElem)
       (rest1 rest2 : List DtElem), dt.text = "交通" →
       soup1.dts = pre ++ dt :: rest1 → soup2.dts = pre ++ dt :: rest2 →
       extract_stations_basic soup1 5 = extract_stations_basic soup2 5) ∧
    (∀ soup : Soup, (∀ dt ∈ soup.dts, dt.text ≠ "交通") →
       extract_stations_basic soup 5 = []) ∧
    (∀ t : String, t.data.contains '／' = false → t.data.contains '/' = false →
       parseStationText t = (none, none)) ∧
    extract_stations_basic twoLabelSoup 5 =
      [{ line := some "JR山手線", station := some "渋谷駅", walk := some "5" },
       { line := none, station := none, walk := some "7" }] := by
  refine ⟨?_, ?_, ?_, by decide⟩
  · intro soup1 soup2 pre dt rest1 rest2 hdt h1 h2
    unfold extract_stations_basic
    rw [h1, h2]
    exact stationsScanDts_first_label 5 dt hdt pre rest1 rest2
  · intro soup h
    exact stationsScanDts_no_label 5 soup.dts h
  · intro t h1 h2
    have hn1 : searchLineStation '／' t.data = none := by
      cases hm : searchLineStation '／' t.data with
      | none => rfl
      | some r =>
        have hmem := searchLineStation_some_mem '／' t.data r hm
        have hc : t.data.contains '／' = true := by
          simp [List.contains, hmem]
        rw [hc] at h1
        cases h1
    have hn2 : searchLineStation '/' t.data = none := by
      cases hm : searchLineStation '/' t.data with
      | none => rfl
      | some r =>
        have hmem := searchLineStation_some_mem '/' t.data r hm
        have hc : t.data.contains '/' = true := by
          simp [List.contains, hmem]
        rw [hc] at h2
        cases h2
    simp [parseStationText, hn1, hn2]

/-- Witness for C9 on a page whose only dt is not a transportation label. -/
theorem c9_stations_first_label_split_walk_witness :
    extract_stations_basic
      { emptySoup with dts := [{ text := "家賃", nextDd := none }] } 5 = [] :=
  c9_stations_first_label_split_walk.2.1
    { emptySoup with dts := [{ text := "家賃", nextDd := none }] } (by decide)

/-- C8 counterexample. On selAddressSoup the .address selector yields the
non-empty literal address text, yet address-text extraction returns null,
because the function never consults the selector list: its whole-page
fallback finds no postal-code anchor. -/
theorem c8_counterexample_selector_ignored :
    (selAddressSoup.selectOne ".address").map Elem.textSp =
      some "東京都渋谷区神宮前" ∧
    "東京都渋谷区神宮前" ≠ "" ∧
    extract_address_text_simple selAddressSoup = none := by
  refine ⟨by decide, by decide, by decide⟩

/-- C8 amended. Address-text extraction ignores the selector list: it is a
function of the newline-joined page text only; that text is scanned for a
line beginning with the postal-code pattern capturing up to 200 further
characters and truncated at the first telephone label, as in the
specification example; without a postal-code anchor the result is null. -/
theorem c8_address_text_page_scan :
    (∀ s1 s2 : Soup, s1.pageTextNl = s2.pageTextNl →
       extract_address_text_simple s1 = extract_address_text_simple s2) ∧
    extract_address_text_simple addrLineSoup =
      some "150-0001 東京都渋谷区neighborhood" ∧
    (∀ soup : Soup, searchPostcodeLine soup.pageTextNl.data = none →
       extract_address_text_simple soup = none) := by
  refine ⟨?_, by decide, ?_⟩
  · intro s1 s2 h
    unfold extract_address_text_simple
    rw [h]
  · intro soup h
    unfold extract_address_text_simple
    rw [h]

/-- Witness for C8 amended: two pages with the same text but different
selector trees extract the same address text. -/
theorem c8_address_text_page_scan_witness :
    extract_address_text_simple
      { emptySoup with
        selectOne := fun _ => some (Elem.mk "東京都渋谷区神宮前" "東京都渋谷区神宮前") } =
      extract_address_text_simple emptySoup :=
  c8_address_text_page_scan.1
    { emptySoup with
      selectOne := fun _ => some (Elem.mk "東京都渋谷区神宮前" "東京都渋谷区神宮前") }
    emptySoup rfl

/-- Structure of a successful lazy suffix-class scan: the group extends
the accumulator by a class-free middle and one class character. -/
theorem lazySufAux_spec (suf : List Char) :
    ∀ (cs acc out rest : List Char), lazySufAux suf acc cs = some (out, rest) →
      ∃ mid c, out = acc.reverse ++ mid ++ [c] ∧ cs = mid ++ c :: rest ∧
        suf.contains c = true ∧ ∀ d ∈ mid, suf.contains d = false := by
  intro cs
  induction cs with
  | nil => intro acc out rest h; cases h
  | cons c0 cs ih =>
    intro acc out rest h
    by_cases h0 : suf.contains c0
    · simp only [lazySufAux, h0, if_true, Option.some.injEq, Prod.mk.injEq] at h
      obtain ⟨hout, hrest⟩ := h
      refine ⟨[], c0, ?_, ?_, h0, by simp⟩
      · rw [← hout, List.reverse_cons]
        simp
      · rw [hrest]
        simp
    · simp only [lazySufAux, h0, Bool.false_eq_true, if_false] at h
      by_cases hn : c0 == '\n'
      · simp only [hn, if_true] at h
        cases h
      · simp only [hn, Bool.false_eq_true, if_false] at h
        obtain ⟨mid, c, hout, hcs, hc, hmid⟩ := ih (c0 :: acc) out rest h
        refine ⟨c0 :: mid, c, ?_, ?_, hc, ?_⟩
        · rw [hout, List.reverse_cons]
          simp
        · rw [hcs]
          simp
        · intro d hd
          rcases List.mem_cons.mp hd with hd | hd
          · rw [hd]
            simpa using h0
          · exact hmid d hd

/-- Structure of the (.+?[SUF]) match: one freely consumed character, a
class-free middle, and a final class character; the group is a prefix of
the input. -/
theorem lazyPrefixSuffix_spec (suf cs out rest : List Char)
    (h : lazyPrefixSuffix suf cs = some (out, rest)) :
    ∃ c0 mid c, out = c0 :: (mid ++ [c]) ∧ cs = out ++ rest ∧
      suf.contains c = true ∧ ∀ d ∈ mid, suf.contains d = false := by
  match cs, h with
  | c0 :: cs2, h =>
    by_cases hn : c0 == '\n'
    · rw [lazyPrefixSuffix, if_pos hn] at h
      cases h
    · rw [lazyPrefixSuffix, if_neg (by simpa using hn)] at h
      obtain ⟨mid, c, hout, hcs, hc, hmid⟩ :=
        lazySufAux_spec suf cs2 [c0] out rest h
      refine ⟨c0, mid, c, ?_, ?_, hc, hmid⟩
      · simpa using hout
      · rw [hout, hcs]
        simp

/-- The city step passes the prefecture argument through unchanged. -/
theorem cityStep_prefecture (pref : Option String) (rest : String) :
    (cityStep pref rest).prefecture = pref := by
  unfold cityStep
  split <;> rfl

/-- The city step never writes a district. -/
theorem cityStep_district (pref : Option String) (rest : String) :
    (cityStep pref rest).district = none := by
  unfold cityStep
  split <;> rfl

/-- The city step never yields an empty remainder string. -/
theorem cityStep_chome_ne_empty (pref : Option String) (rest : String) :
    (cityStep pref rest).chome_banchi ≠ some "" := by
  simp only [cityStep]
  split
  · split
    · simp
    · simp_all
  · split
    · simp
    · simp_all

/-- A non-null city output of the city step ends in a municipal suffix
with no earlier suffix after its first character. -/
theorem cityStep_city_spec (pref : Option String) (rest : String) (ct : String)
    (h : (cityStep pref rest).city = some ct) :
    ∃ c0 mid c, ct.data = c0 :: (mid ++ [c]) ∧
      citySuffixes.contains c = true ∧
      ∀ d ∈ mid, citySuffixes.contains d = false := by
  unfold cityStep at h
  cases hm : lazyPrefixSuffix citySuffixes rest.data with
  | none =>
    rw [hm] at h
    cases h
  | some pr =>
    rw [hm] at h
    obtain ⟨cty, r⟩ := pr
    simp only [AddrParts.mk.injEq] at h
    have hct : ct = cty.asString := by
      simpa using h.symm
    obtain ⟨c0, mid, c, hout, _, hc, hmid⟩ :=
      lazyPrefixSuffix_spec citySuffixes rest.data cty r hm
    refine ⟨c0, mid, c, ?_, hc, hmid⟩
    rw [hct]
    simpa using hout

/-- A non-null prefecture ends in a prefecture suffix with no earlier
suffix after its first character, and is a prefix of the
postcode-stripped address. -/
theorem split_pref_spec (addr p : String)
    (h : (split_japanese_address_simple addr).prefecture = some p) :
    ∃ c0 mid c rest, p.data = c0 :: (mid ++ [c]) ∧
      prefSuffixes.contains c = true ∧
      (∀ d ∈ mid, prefSuffixes.contains d = false) ∧
      (stripLeadingPostcode addr).data = p.data ++ rest := by
  simp only [split_japanese_address_simple] at h
  cases hm : lazyPrefixSuffix prefSuffixes (stripLeadingPostcode addr).data with
  | none =>
    rw [hm, cityStep_prefecture] at h
    cases h
  | some pr =>
    rw [hm] at h
    obtain ⟨p0, r⟩ := pr
    rw [cityStep_prefecture] at h
    have hp : p = p0.asString := by simpa using h.symm
    obtain ⟨c0, mid, c, hout, hcs, hc, hmid⟩ :=
      lazyPrefixSuffix_spec prefSuffixes (stripLeadingPostcode addr).data p0 r hm
    refine ⟨c0, mid, c, r, ?_, hc, hmid, ?_⟩
    · rw [hp]
      simpa using hout
    · rw [hp]
      simpa using hcs

/-- A non-null city of the full segmentation ends in a municipal suffix
with no earlier suffix after its first character. -/
theorem split_city_spec (addr ct : String)
    (h : (split_japanese_address_simple addr).city = some ct) :
    ∃ c0 mid c, ct.data = c0 :: (mid ++ [c]) ∧
      citySuffixes.contains c = true ∧
      ∀ d ∈ mid, citySuffixes.contains d = false := by
  simp only [split_japanese_address_simple] at h
  cases hm : lazyPrefixSuffix prefSuffixes (stripLeadingPostcode addr).data with
  | none =>
    rw [hm] at h
    exact cityStep_city_spec _ _ _ h
  | some pr =>
    rw [hm] at h
    obtain ⟨p0, r⟩ := pr
    exact cityStep_city_spec _ _ _ h

/-- C4. Address segmentation strips a leading postal code, then takes the
greedy-leftmost prefix ending in 都道府県 as prefecture and the
greedy-leftmost prefix of the remainder ending in 市区郡町村 as city; the
two specification examples hold; an empty final remainder is null, not an
empty string; and district is null for every input. -/
theorem c4_address_segmentation :
    split_japanese_address_simple "東京都渋谷区神宮前1-2-3" =
      { prefecture := some "東京都", city := some "渋谷区", district := none,
        chome_banchi := some "神宮前1-2-3" } ∧
    split_japanese_address_simple "渋谷区神宮前1-2-3" =
      { prefecture := none, city := some "渋谷区", district := none,
        chome_banchi := some "神宮前1-2-3" } ∧
    split_japanese_address_simple "150-0001 東京都渋谷区神宮前1-2-3" =
      split_japanese_address_simple "東京都渋谷区神宮前1-2-3" ∧
    (∀ addr : String, (split_japanese_address_simple addr).district = none) ∧
    (∀ addr : String,
       (split_japanese_address_simple addr).chome_banchi ≠ some "") ∧
    (∀ addr p : String,
       (split_japanese_address_simple addr).prefecture = some p →
       ∃ c0 mid c rest, p.data = c0 :: (mid ++ [c]) ∧
         prefSuffixes.contains c = true ∧
         (∀ d ∈ mid, prefSuffixes.contains d = false) ∧
         (stripLeadingPostcode addr).data = p.data ++ rest) ∧
    (∀ addr ct : String,
       (split_japanese_address_simple addr).city = some ct →
       ∃ c0 mid c, ct.data = c0 :: (mid ++ [c]) ∧
         citySuffixes.contains c = true ∧
         ∀ d ∈ mid, citySuffixes.contains d = false) := by
  refine ⟨by decide, by decide, by decide, ?_, ?_, ?_, ?_⟩
  · intro addr
    simp only [split_japanese_address_simple]
    split
    · exact cityStep_district _ _
    · exact cityStep_district _ _
  · intro addr
    simp only [split_japanese_address_simple]
    split
    · exact cityStep_chome_ne_empty _ _
    · exact cityStep_chome_ne_empty _ _
  · exact split_pref_spec
  · exact split_city_spec

/-- Witness for C4: the prefecture of the specification example satisfies
the greedy-prefix characterization. -/
theorem c4_address_segmentation_witness :
    ∃ c0 mid c rest, ("東京都" : String).data = c0 :: (mid ++ [c]) ∧
      prefSuffixes.contains c = true ∧
      (∀ d ∈ mid, prefSuffixes.contains d = false) ∧
      (stripLeadingPostcode "東京都渋谷区神宮前1-2-3").data =
        ("東京都" : String).data ++ rest :=
  c4_address_segmentation.2.2.2.2.2.1 "東京都渋谷区神宮前1-2-3" "東京都" (by decide)

/-- The digit-run scan is empty exactly when the accumulator is empty and
no digit occurs. -/
theorem digitRunsAux_eq_nil_iff :
    ∀ (cs cur : List Char), digitRunsAux cur cs = [] ↔
      (cur.isEmpty = true ∧ ∀ c ∈ cs, isDigitChar c = false) := by
  intro cs
  induction cs with
  | nil =>
    intro cur
    simp only [digitRunsAux]
    by_cases h : cur.isEmpty <;> simp [h]
  | cons c cs ih =>
    intro cur
    by_cases hd : isDigitChar c
    · simp only [digitRunsAux, hd, if_true]
      rw [ih (c :: cur)]
      simp [hd]
    · simp only [digitRunsAux, hd, Bool.false_eq_true, if_false]
      by_cases hcur : cur.isEmpty
      · rw [if_pos hcur, ih []]
        simp [hcur, hd]
      · rw [if_neg hcur]
        simp [hcur, hd]

/-- A successful /rent/ search implies a digit somewhere in the input. -/
theorem rentMatchAt_digit (cs : List Char) (r : List Char × List Char)
    (h : rentMatchAt cs = some r) : ∃ c ∈ cs, isDigitChar c = true := by
  simp only [rentMatchAt] at h
  by_cases hs : listStartsWith "/rent/".data cs
  · rw [if_pos hs] at h
    by_cases he : ((cs.drop 6).takeWhile isDigitChar).isEmpty
    · rw [if_pos he] at h
      cases h
    · have hne : (cs.drop 6).takeWhile isDigitChar ≠ [] := fun hnil => he (by rw [hnil]; rfl)
      obtain ⟨d, hd⟩ := List.exists_mem_of_ne_nil _ hne
      have hdig : isDigitChar d = true := List.mem_takeWhile_imp hd
      have hmem : d ∈ cs :=
        List.drop_subset 6 cs ((List.takeWhile_prefix isDigitChar).subset hd)
      exact ⟨d, hmem, hdig⟩
  · rw [if_neg hs] at h
    cases h

/-- A successful /rent/ search in a scan implies a digit in the input. -/
theorem searchRent_digit :
    ∀ (cs : List Char) (r : List Char × List Char),
      searchRent cs = some r → ∃ c ∈ cs, isDigitChar c = true := by
  intro cs
  induction cs with
  | nil => intro r h; cases h
  | cons c cs ih =>
    intro r h
    rw [searchRent] at h
    cases hm : rentMatchAt (c :: cs) with
    | some r0 =>
      obtain ⟨d, hd, hdig⟩ := rentMatchAt_digit (c :: cs) r0 hm
      exact ⟨d, hd, hdig⟩
    | none =>
      rw [hm] at h
      obtain ⟨d, hd, hdig⟩ := ih r h
      exact ⟨d, List.mem_cons_of_mem c hd, hdig⟩

/-- Both groups of a successful /rent/ match are nonempty digit runs. -/
theorem rentMatchAt_sound (cs : List Char) (a b : List Char)
    (h : rentMatchAt cs = some (a, b)) :
    a ≠ [] ∧ (∀ c ∈ a, isDigitChar c = true) ∧
    b ≠ [] ∧ (∀ c ∈ b, isDigitChar c = true) := by
  simp only [rentMatchAt] at h
  by_cases hs : listStartsWith "/rent/".data cs
  · rw [if_pos hs] at h
    by_cases he : ((cs.drop 6).takeWhile isDigitChar).isEmpty
    · rw [if_pos he] at h
      cases h
    · rw [if_neg he] at h
      by_cases hsl : listStartsWith "/".data ((cs.drop 6).dropWhile isDigitChar)
      · rw [if_pos hsl] at h
        by_cases he2 :
            (((cs.drop 6).dropWhile isDigitChar).tail.takeWhile isDigitChar).isEmpty
        · rw [if_pos he2] at h
          cases h
        · rw [if_neg he2] at h
          simp only [Option.some.injEq, Prod.mk.injEq] at h
          obtain ⟨ha, hb⟩ := h
          refine ⟨?_, ?_, ?_, ?_⟩
          · rw [← ha]
            exact fun hnil => he (by rw [hnil]; rfl)
          · intro c hc
            rw [← ha] at hc
            exact List.mem_takeWhile_imp hc
          · rw [← hb]
            exact fun hnil => he2 (by rw [hnil]; rfl)
          · intro c hc
            rw [← hb] at hc
            exact List.mem_takeWhile_imp hc
      · rw [if_neg hsl] at h
        cases h
  · rw [if_neg hs] at h
    cases h

/-- Both groups of a successful scanned /rent/ search are nonempty digit
runs. -/
theorem searchRent_sound :
    ∀ (cs a b : List Char), searchRent cs = some (a, b) →
      a ≠ [] ∧ (∀ c ∈ a, isDigitChar c = true) ∧
      b ≠ [] ∧ (∀ c ∈ b, isDigitChar c = true) := by
  intro cs
  induction cs with
  | nil => intro a b h; cases h
  | cons c cs ih =>
    intro a b h
    rw [searchRent] at h
    cases hm : rentMatchAt (c :: cs) with
    | some r0 =>
      rw [hm] at h
      cases h
      exact rentMatchAt_sound (c :: cs) a b hm
    | none =>
      rw [hm] at h
      exact ih a b h

/-- takeWhile over an append whose first part satisfies the predicate. -/
theorem takeWhile_append_all (p : Char → Bool) :
    ∀ (l1 l2 : List Char), (∀ c ∈ l1, p c = true) →
      (l1 ++ l2).takeWhile p = l1 ++ l2.takeWhile p := by
  intro l1
  induction l1 with
  | nil => intro l2 _; simp
  | cons a l1 ih =>
    intro l2 h
    have ha : p a = true := h a (by simp)
    rw [List.cons_append, List.takeWhile_cons_of_pos ha,
      ih l2 (fun c hc => h c (by simp [hc])), List.cons_append]

/-- dropWhile over an append whose first part satisfies the predicate. -/
theorem dropWhile_append_all (p : Char → Bool) :
    ∀ (l1 l2 : List Char), (∀ c ∈ l1, p c = true) →
      (l1 ++ l2).dropWhile p = l2.dropWhile p := by
  intro l1
  induction l1 with
  | nil => intro l2 _; simp
  | cons a l1 ih =>
    intro l2 h
    have ha : p a = true := h a (by simp)
    simp only [List.cons_append, List.dropWhile_cons_of_pos ha]
    exact ih l2 (fun c hc => h c (by simp [hc]))

/-- A list starts with itself in front of any continuation. -/
theorem listStartsWith_self_append :
    ∀ (p r : List Char), listStartsWith p (p ++ r) = true := by
  intro p
  induction p with
  | nil => intro r; rfl
  | cons a p ih =>
    intro r
    simp only [List.cons_append, listStartsWith, BEq.refl, Bool.true_and]
    exact ih r

/-- A successful prefix test exhibits the list as the prefix plus a rest. -/
theorem listStartsWith_exists_append :
    ∀ (p cs : List Char), listStartsWith p cs = true → ∃ rest, cs = p ++ rest := by
  intro p
  induction p with
  | nil => intro cs _; exact ⟨cs, rfl⟩
  | cons a p ih =>
    intro cs h
    cases cs with
    | nil => simp [listStartsWith] at h
    | cons c cs2 =>
      simp only [listStartsWith, Bool.and_eq_true, beq_iff_eq] at h
      obtain ⟨hac, hsw⟩ := h
      obtain ⟨rest, hrest⟩ := ih cs2 hsw
      exact ⟨rest, by rw [List.cons_append, hac, hrest]⟩

/-- The /rent/ pattern at the head of a literal decomposition whose runs
are maximal returns exactly the two runs. -/
theorem rentMatchAt_decomp_exact (D1 D2 post : List Char) (h1 : D1 ≠ [])
    (h2 : D2 ≠ []) (hd1 : ∀ c ∈ D1, isDigitChar c = true)
    (hd2 : ∀ c ∈ D2, isDigitChar c = true)
    (hpost : ∀ d : Char, post.head? = some d → isDigitChar d = false) :
    rentMatchAt ("/rent/".data ++ (D1 ++ ('/' :: (D2 ++ post)))) = some (D1, D2) := by
  have htpost : post.takeWhile isDigitChar = [] := by
    cases post with
    | nil => rfl
    | cons d rest =>
      have hd := hpost d rfl
      rw [List.takeWhile_cons_of_neg (by simp [hd])]
  simp only [rentMatchAt]
  rw [if_pos (listStartsWith_self_append "/rent/".data (D1 ++ ('/' :: (D2 ++ post))))]
  rw [List.drop_left' (by rfl)]
  rw [takeWhile_append_all isDigitChar D1 ('/' :: (D2 ++ post)) hd1]
  rw [List.takeWhile_cons_of_neg (by decide), List.append_nil]
  rw [dropWhile_append_all isDigitChar D1 ('/' :: (D2 ++ post)) hd1]
  rw [List.dropWhile_cons_of_neg (by decide)]
  rw [if_neg (by simpa [List.isEmpty_iff] using h1)]
  rw [if_pos (by simp [listStartsWith])]
  rw [List.tail_cons]
  rw [takeWhile_append_all isDigitChar D2 post hd2, htpost, List.append_nil]
  rw [if_neg (by simpa [List.isEmpty_iff] using h2)]

/-- The scan returns the head match when no earlier position carries the
/rent/ literal. -/
theorem searchRent_exact :
    ∀ (pre suffix : List Char) (r : List Char × List Char),
      (∀ (pre2 mid : List Char), pre ++ suffix = pre2 ++ ("/rent/".data ++ mid) →
        pre.length ≤ pre2.length) →
      rentMatchAt suffix = some r → searchRent (pre ++ suffix) = some r := by
  intro pre
  induction pre with
  | nil =>
    intro suffix r _ hm
    cases suffix with
    | nil => rw [show rentMatchAt [] = none from rfl] at hm; cases hm
    | cons c cs =>
      rw [List.nil_append, searchRent, hm]
  | cons x pre ih =>
    intro suffix r hmin hm
    have hnone : rentMatchAt (x :: (pre ++ suffix)) = none := by
      cases hval : rentMatchAt (x :: (pre ++ suffix)) with
      | none => rfl
      | some r0 =>
        have hsw : listStartsWith "/rent/".data (x :: (pre ++ suffix)) = true := by
          by_contra hns
          rw [rentMatchAt, if_neg hns] at hval
          cases hval
        obtain ⟨mid, hmid⟩ := listStartsWith_exists_append _ _ hsw
        have hle := hmin [] mid (by rw [List.cons_append, hmid, List.nil_append])
        simp at hle
    rw [List.cons_append, searchRent, hnone]
    exact ih suffix r
      (fun pre2 mid heq => by
        have hle := hmin (x :: pre2) mid (by simp [heq])
        simp only [List.length_cons] at hle
        omega)
      hm

/-- A successful head match exhibits the /rent/ literal decomposition with
its two matched runs and a non-digit-headed rest. -/
theorem rentMatchAt_complete (cs a b : List Char)
    (h : rentMatchAt cs = some (a, b)) :
    ∃ post, cs = "/rent/".data ++ (a ++ ('/' :: (b ++ post))) := by
  simp only [rentMatchAt] at h
  by_cases hs : listStartsWith "/rent/".data cs
  · rw [if_pos hs] at h
    by_cases he : ((cs.drop 6).takeWhile isDigitChar).isEmpty
    · rw [if_pos he] at h
      cases h
    · rw [if_neg he] at h
      by_cases hsl : listStartsWith "/".data ((cs.drop 6).dropWhile isDigitChar)
      · rw [if_pos hsl] at h
        by_cases he2 :
            (((cs.drop 6).dropWhile isDigitChar).tail.takeWhile isDigitChar).isEmpty
        · rw [if_pos he2] at h
          cases h
        · rw [if_neg he2] at h
          simp only [Option.some.injEq, Prod.mk.injEq] at h
          obtain ⟨ha, hb⟩ := h
          obtain ⟨mid, hmid⟩ := listStartsWith_exists_append _ _ hs
          have hdrop : cs.drop 6 = mid := by
            rw [hmid]
            exact List.drop_left' (by rfl)
          obtain ⟨tail0, htail⟩ := listStartsWith_exists_append _ _ hsl
          have htail2 : (cs.drop 6).dropWhile isDigitChar = '/' :: tail0 := htail
          refine ⟨tail0.dropWhile isDigitChar, ?_⟩
          rw [hmid]
          congr 1
          rw [← hdrop]
          conv_lhs =>
            rw [← List.takeWhile_append_dropWhile (p := isDigitChar) (l := cs.drop 6)]
          rw [ha, htail2]
          have htail0 : tail0 = b ++ tail0.dropWhile isDigitChar := by
            rw [htail2, List.tail_cons] at hb
            rw [← hb]
            exact (List.takeWhile_append_dropWhile isDigitChar tail0).symm
          conv_lhs => rw [htail0]
      · rw [if_neg hsl] at h
        cases h
  · rw [if_neg hs] at h
    cases h

/-- A successful scan exhibits the /rent/ literal decomposition of the
whole input around the matched runs. -/
theorem searchRent_complete :
    ∀ (cs a b : List Char), searchRent cs = some (a, b) →
      ∃ pre post, cs = pre ++ ("/rent/".data ++ (a ++ ('/' :: (b ++ post)))) := by
  intro cs
  induction cs with
  | nil => intro a b h; cases h
  | cons c cs ih =>
    intro a b h
    rw [searchRent] at h
    cases hm : rentMatchAt (c :: cs) with
    | some r0 =>
      rw [hm] at h
      cases h
      obtain ⟨post, hpost⟩ := rentMatchAt_complete (c :: cs) a b hm
      exact ⟨[], post, by rw [List.nil_append, hpost]⟩
    | none =>
      rw [hm] at h
      obtain ⟨pre, post, hdec⟩ := ih a b h
      exact ⟨c :: pre, post, by rw [List.cons_append, hdec]⟩

/-- A prefix occurrence makes the substring test succeed. -/
theorem containsSub_of_startsWith (nd : List Char) :
    ∀ l : List Char, listStartsWith nd l = true → containsSub nd l = true := by
  intro l h
  cases l with
  | nil => simpa [containsSub] using h
  | cons c cs => simp [containsSub, h]

/-- Any embedded occurrence makes the substring test succeed. -/
theorem containsSub_append_left (nd : List Char) :
    ∀ (xs ys : List Char), containsSub nd (xs ++ (nd ++ ys)) = true := by
  intro xs ys
  induction xs with
  | nil =>
    rw [List.nil_append]
    exact containsSub_of_startsWith nd _ (listStartsWith_self_append nd ys)
  | cons x xs ih =>
    rw [List.cons_append]
    simp [containsSub, ih]

/-- If /rent/ does not occur in the window covering all earlier starting
positions, no /rent/ decomposition starts earlier. -/
theorem no_earlier_rent_of_notContains (url : String) (pre : List Char)
    (h : containsSub "/rent/".data (url.data.take (pre.length + 5)) = false) :
    ∀ pre2 mid : List Char, url.data = pre2 ++ ("/rent/".data ++ mid) →
      pre.length ≤ pre2.length := by
  intro pre2 mid heq
  by_contra hlt
  push_neg at hlt
  have h6 : ("/rent/".data).length = 6 := rfl
  have htrue : containsSub "/rent/".data (url.data.take (pre.length + 5)) = true := by
    rw [heq, List.take_append_eq_append_take,
      List.take_of_length_le (by omega : pre2.length ≤ pre.length + 5),
      List.take_append_eq_append_take,
      List.take_of_length_le (by omega : ("/rent/".data).length ≤ pre.length + 5 - pre2.length)]
    exact containsSub_append_left "/rent/".data pre2 _
  rw [h] at htrue
  cases htrue

/-- If /rent/ does not occur in the URL at all, no /rent/ decomposition
exists. -/
theorem no_rent_decomp_of_notContains (url : String)
    (h : containsSub "/rent/".data url.data = false) :
    ∀ (pre D1 D2 post : List Char),
      url.data ≠ pre ++ ("/rent/".data ++ (D1 ++ ('/' :: (D2 ++ post)))) := by
  intro pre D1 D2 post heq
  have htrue := containsSub_append_left "/rent/".data pre (D1 ++ ('/' :: (D2 ++ post)))
  rw [← heq, h] at htrue
  cases htrue

/-- Every run collected by the digit-run scan is a nonempty digit run. -/
theorem digitRunsAux_mem :
    ∀ (cs cur r : List Char), (∀ c ∈ cur, isDigitChar c = true) →
      r ∈ digitRunsAux cur cs → r ≠ [] ∧ ∀ c ∈ r, isDigitChar c = true := by
  intro cs
  induction cs with
  | nil =>
    intro cur r hcur hr
    simp only [digitRunsAux] at hr
    by_cases hc : cur.isEmpty
    · simp [hc] at hr
    · rw [if_neg hc] at hr
      rw [List.mem_singleton] at hr
      subst hr
      constructor
      · simp only [ne_eq, List.reverse_eq_nil_iff]
        simpa [List.isEmpty_iff] using hc
      · intro c hcm
        exact hcur c (List.mem_reverse.mp hcm)
  | cons c0 cs ih =>
    intro cur r hcur hr
    simp only [digitRunsAux] at hr
    by_cases hd : isDigitChar c0
    · rw [if_pos hd] at hr
      refine ih (c0 :: cur) r ?_ hr
      intro c hc
      rcases List.mem_cons.mp hc with h | h
      · rw [h]; exact hd
      · exact hcur c h
    · rw [if_neg hd] at hr
      by_cases hc : cur.isEmpty
      · rw [if_pos hc] at hr
        exact ih [] r (fun c hcm => absurd hcm (List.not_mem_nil c)) hr
      · rw [if_neg hc] at hr
        rcases List.mem_cons.mp hr with h | h
        · subst h
          constructor
          · simp only [ne_eq, List.reverse_eq_nil_iff]
            simpa [List.isEmpty_iff] using hc
          · intro c hcm
            exact hcur c (List.mem_reverse.mp hcm)
        · exact ih [] r (fun c hcm => absurd hcm (List.not_mem_nil c)) h

/-- Every run returned by digitRuns is a nonempty digit run. -/
theorem digitRuns_mem (cs r : List Char) (h : r ∈ digitRuns cs) :
    r ≠ [] ∧ ∀ c ∈ r, isDigitChar c = true :=
  digitRunsAux_mem cs [] r (fun c hc => absurd hc (List.not_mem_nil c)) h

/-- C3. extract_property_csv_id is a pure function of the URL: the
specification examples hold; the result is null exactly when the URL has
no digit; at the leftmost /rent/ occurrence followed by two maximal
slash-separated digit runs the result is exactly those two runs joined
with an underscore; when no /rent/ two-segment pattern occurs anywhere,
the result joins every digit run of the URL, in order of appearance, with
underscores; and every such run is a nonempty digit run. -/
theorem c3_property_csv_id :
    extract_property_csv_id "https://rent.example.co.jp/rent/8034884/117024" =
      some "8034884_117024" ∧
    extract_property_csv_id "https://rent.example.co.jp/listing/99" = some "99" ∧
    (∀ url : String,
       extract_property_csv_id url = none ↔ ∀ c ∈ url.data, isDigitChar c = false) ∧
    (∀ (url : String) (pre D1 D2 post : List Char), D1 ≠ [] → D2 ≠ [] →
       (∀ c ∈ D1, isDigitChar c = true) → (∀ c ∈ D2, isDigitChar c = true) →
       (∀ d : Char, post.head? = some d → isDigitChar d = false) →
       url.data = pre ++ ("/rent/".data ++ (D1 ++ ('/' :: (D2 ++ post)))) →
       (∀ pre2 mid : List Char, url.data = pre2 ++ ("/rent/".data ++ mid) →
          pre.length ≤ pre2.length) →
       extract_property_csv_id url = some (D1.asString ++ "_" ++ D2.asString)) ∧
    (∀ url : String,
       (∀ (pre D1 D2 post : List Char), D1 ≠ [] → D2 ≠ [] →
          (∀ c ∈ D1, isDigitChar c = true) → (∀ c ∈ D2, isDigitChar c = true) →
          url.data ≠ pre ++ ("/rent/".data ++ (D1 ++ ('/' :: (D2 ++ post))))) →
       extract_property_csv_id url =
         if (digitRuns url.data).isEmpty then none
         else some (String.intercalate "_" ((digitRuns url.data).map List.asString))) ∧
    (∀ (url : String) (r : List Char), r ∈ digitRuns url.data →
       r ≠ [] ∧ ∀ c ∈ r, isDigitChar c = true) := by
  refine ⟨by decide, by decide, ?_, ?_, ?_, ?_⟩
  · intro url
    constructor
    · intro h
      rw [extract_property_csv_id] at h
      cases hm : searchRent url.data with
      | some r =>
        rw [hm] at h
        obtain ⟨a, b⟩ := r
        cases h
      | none =>
        rw [hm] at h
        by_cases hruns : (digitRuns url.data).isEmpty
        · have hnil : digitRuns url.data = [] := by
            simpa [List.isEmpty_iff] using hruns
          have hiff := digitRunsAux_eq_nil_iff url.data []
          rw [digitRuns] at hnil
          exact (hiff.mp hnil).2
        · rw [if_neg hruns] at h
          cases h
    · intro h
      have hruns : digitRuns url.data = [] := by
        rw [digitRuns]
        exact (digitRunsAux_eq_nil_iff url.data []).mpr ⟨rfl, h⟩
      cases hm : searchRent url.data with
      | some r =>
        obtain ⟨a, b⟩ := r
        obtain ⟨d, hd, hdig⟩ := searchRent_digit url.data (a, b) hm
        rw [h d hd] at hdig
        cases hdig
      | none =>
        rw [extract_property_csv_id, hm]
        simp [hruns]
  · intro url pre D1 D2 post h1 h2 hd1 hd2 hpost hurl hmin
    have hmatch := rentMatchAt_decomp_exact D1 D2 post h1 h2 hd1 hd2 hpost
    have hsr : searchRent url.data = some (D1, D2) := by
      rw [hurl]
      exact searchRent_exact pre _ (D1, D2)
        (fun pre2 mid heq => hmin pre2 mid (hurl.trans heq)) hmatch
    rw [extract_property_csv_id, hsr]
  · intro url hno
    cases hm : searchRent url.data with
    | some r =>
      obtain ⟨a, b⟩ := r
      obtain ⟨ha, hadig, hb, hbdig⟩ := searchRent_sound url.data a b hm
      obtain ⟨pre, post, hdec⟩ := searchRent_complete url.data a b hm
      exact absurd hdec (hno pre a b post ha hb hadig hbdig)
    | none =>
      rw [extract_property_csv_id, hm]
  · intro url r h
    exact digitRuns_mem url.data r h

/-- Witness for C3: the null case, the exact leftmost /rent/ clause, and
the multi-run fallback clause at concrete URLs. -/
theorem c3_property_csv_id_witness :
    extract_property_csv_id "https://x.example/nodigits" = none ∧
    extract_property_csv_id "https://x.example/rent/12/34" = some "12_34" ∧
    extract_property_csv_id "https://x.example/a12b3" = some "12_3" := by
  refine ⟨?_, ?_, ?_⟩
  · exact (c3_property_csv_id.2.2.1 "https://x.example/nodigits").mpr (by decide)
  · have h := c3_property_csv_id.2.2.2.1 "https://x.example/rent/12/34"
      "https://x.example".data ['1', '2'] ['3', '4'] []
      (by decide) (by decide) (by decide) (by decide)
      (fun d hd => Option.noConfusion hd)
      (by decide)
      (no_earlier_rent_of_notContains "https://x.example/rent/12/34"
        "https://x.example".data (by decide))
    rw [h]
    decide
  · have h := c3_property_csv_id.2.2.2.2.1 "https://x.example/a12b3"
      (fun pre D1 D2 post _ _ _ _ =>
        no_rent_decomp_of_notContains "https://x.example/a12b3" (by decide)
          pre D1 D2 post)
    rw [h]
    decide
